import Mathlib

/-!
Shallow embedding of the stream reconciliation engine of
`src/frontend/src/components/Chat.tsx` (`sendMessageWithQuery` and the
state it drives).  React state updates become a pure step function on a
`ChatState` value; `Date.now()` and `crypto.randomUUID()` are passed in as
explicit parameters (`now`, `uuid`).  JavaScript truthiness tests on
string fields are modelled by `truthyOpt` (absent or empty string is
falsy).  Absent JSON fields are `Option.none`.  Strict equality between a
possibly-undefined field and a possibly-null field is `sameId` (two
absent values never compare equal, matching `undefined === null`).
-/

/-- Message.type in Chat.tsx: 'user' | 'ai' | 'tool' | 'system'. -/
inductive MsgType where
  | user
  | ai
  | tool
  | system
  deriving DecidableEq, Repr

/-- ProcessStep.status: 'pending' | 'running' | 'completed'. -/
inductive StepStatus where
  | pending
  | running
  | completed
  deriving DecidableEq, Repr

/-- ChatState.workflowType: 'general' | 'search' (| null, as Option). -/
inductive WorkflowType where
  | general
  | search
  deriving DecidableEq, Repr

/-- interface ProcessStep. -/
structure ProcessStep where
  id : String
  label : String
  status : StepStatus
  isLongRunning : Bool := false
  deriving DecidableEq, Repr

/-- search_metadata payload. -/
structure SearchMetadata where
  search_query : String
  search_parameters : String
  results_count : Int
  search_url : String
  deriving DecidableEq, Repr

/-- interface Message.  The `metadata` record of the source is flattened
into optional fields (`isStreaming`, tool fields); `streamStartTime` is
not observable by any claim and is omitted. -/
structure Message where
  id : String
  type : MsgType
  content : String
  isStreaming : Bool := false
  toolName : Option String := none
  toolInput : Option String := none
  toolOutput : Option String := none
  outputSummary : Option String := none
  toolStatus : Option String := none
  processSteps : Option (List ProcessStep) := none
  requestId : Option String := none
  searchMetadata : Option SearchMetadata := none
  suggestedQuestions : Option (List String) := none
  deriving DecidableEq, Repr

/-- interface ChatState. -/
structure ChatState where
  messages : List Message
  isLoading : Bool
  sessionId : Option String
  currentStreamingMessageId : Option String
  processSteps : List ProcessStep
  currentRequestId : Option String
  workflowType : Option WorkflowType
  deriving DecidableEq, Repr

/-- A parsed SSE JSON payload; every field the handler reads.  Absent
fields are `none`. -/
structure Frame where
  type : Option String := none
  error : Option String := none
  session_id : Option String := none
  current_step : Option String := none
  completed_step : Option String := none
  metadata : Option SearchMetadata := none
  content : Option String := none
  tool_name : Option String := none
  tool_input : Option String := none
  tool_output : Option String := none
  response : Option String := none
  suggested_questions : Option (List String) := none
  deriving DecidableEq, Repr

/-- JavaScript truthiness of a possibly-absent string: `undefined`/null
and the empty string are falsy. -/
def truthyOpt (o : Option String) : Bool :=
  decide (o.getD "" ≠ "")

/-- Strict equality `a === b` between an optional-string field and a
string-or-null field: true only when both are present and equal. -/
def sameId (a b : Option String) : Bool :=
  match a, b with
  | some x, some y => decide (x = y)
  | _, _ => false

/-- `Array.prototype.indexOf`: index of the first occurrence, `-1` when
absent. -/
def jsIndexOf (l : List String) (x : String) : Int :=
  match l with
  | [] => -1
  | y :: t =>
    if y = x then 0
    else if jsIndexOf t x < 0 then -1 else jsIndexOf t x + 1

/-- `String.prototype.substring(0, n)` (by character). -/
def jsSubstring (s : String) (n : Nat) : String :=
  String.mk (s.data.take n)

/-- `String.prototype.trim()`: strip whitespace from both ends (defined
over the character list so that it evaluates by kernel reduction). -/
def jsTrim (s : String) : String :=
  String.mk (((s.data.dropWhile Char.isWhitespace).reverse.dropWhile Char.isWhitespace).reverse)

/-- getProcessSteps(): the unified stage table created for every turn. -/
def getProcessSteps : List ProcessStep :=
  [ { id := "start", label := "요청 처리 시작", status := StepStatus.pending },
    { id := "analyze_query", label := "사용자 의도 파악", status := StepStatus.pending },
    { id := "optimize_search_query", label := "무신사 검색 최적화", status := StepStatus.pending },
    { id := "search_products", label := "상품 데이터 수집", status := StepStatus.pending, isLongRunning := true },
    { id := "filter_product_links", label := "관련 상품 필터링", status := StepStatus.pending },
    { id := "extract_product_data", label := "상세 정보 추출", status := StepStatus.pending, isLongRunning := true },
    { id := "validate_and_select", label := "최적 상품 선별", status := StepStatus.pending },
    { id := "generate_final_response", label := "답변 생성", status := StepStatus.pending } ]

/-- The progress-signal whitelist of line 447: a `step` signal containing
an underscore is a completion signal unless it is one of these. -/
def progressIds : List String :=
  [ "analyze_query", "optimize_search_query", "search_products",
    "filter_product_links", "extract_product_data", "validate_and_select",
    "generate_final_response", "generate_suggested_questions", "handle_general_query" ]

/-- isCompletion of line 447.  `includes('_')` is a character
containment test; it is taken over the character list (and the whitelist
membership over decidable list membership) so that it evaluates by
kernel reduction. -/
def isCompletionSignal (stepId : String) : Bool :=
  decide ('_' ∈ stepId.data) && !(decide (stepId ∈ progressIds))

/-- The stages force-completed by the general-workflow fast-forward. -/
def ffList : List String :=
  [ "start", "analyze_query", "optimize_search_query", "search_products",
    "filter_product_links", "extract_product_data", "validate_and_select" ]

/-- The full (search-workflow) step order. -/
def fullOrder : List String :=
  [ "start", "analyze_query", "optimize_search_query", "search_products",
    "filter_product_links", "extract_product_data", "validate_and_select",
    "generate_final_response" ]

/-- The short (general-workflow) step order. -/
def generalOrder : List String :=
  [ "start", "analyze_query", "generate_final_response" ]

/-- Canonical rank of a stage signal in the full step order. -/
def canonicalRank (x : String) : Int :=
  jsIndexOf fullOrder x

/-- Fast-forward of lines 460-468: all intermediate stages completed,
final response running. -/
def fastForwardSteps (steps : List ProcessStep) : List ProcessStep :=
  steps.map fun st =>
    if st.id ∈ ffList then { st with status := StepStatus.completed }
    else if st.id = "generate_final_response" then { st with status := StepStatus.running }
    else st

/-- Completion-signal branch of lines 502-523: the six completion tokens
each complete their matching stage; anything else is untouched. -/
def completionUpdate (stepId : String) (st : ProcessStep) : ProcessStep :=
  if stepId = "query_analyzed" ∧ st.id = "analyze_query" then { st with status := StepStatus.completed }
  else if stepId = "search_optimized" ∧ st.id = "optimize_search_query" then { st with status := StepStatus.completed }
  else if stepId = "search_completed" ∧ st.id = "search_products" then { st with status := StepStatus.completed }
  else if stepId = "links_filtered" ∧ st.id = "filter_product_links" then { st with status := StepStatus.completed }
  else if stepId = "data_extracted" ∧ st.id = "extract_product_data" then { st with status := StepStatus.completed }
  else if stepId = "products_selected" ∧ st.id = "validate_and_select" then { st with status := StepStatus.completed }
  else st

/-- The per-stage update of lines 491-553: completion signals delegate to
`completionUpdate`; progress signals force earlier stages completed, the
matching stage (or the documented alias) running, later stages pending. -/
def applyStepSignal (isCompletion : Bool) (stepOrder : List String)
    (stepId : String) (steps : List ProcessStep) : List ProcessStep :=
  steps.map fun st =>
    let currentStepIndex := jsIndexOf stepOrder stepId
    let thisStepIndex := jsIndexOf stepOrder st.id
    if isCompletion then completionUpdate stepId st
    else if currentStepIndex > thisStepIndex then { st with status := StepStatus.completed }
    else if st.id = stepId ∨ (stepId = "extracting_product_details" ∧ st.id = "extract_product_data") then
      { st with status := StepStatus.running }
    else if currentStepIndex < thisStepIndex then { st with status := StepStatus.pending }
    else st

/-- Lines 557-562 (and their copies): mirror the freshly computed stage
list into the current turn's user message. -/
def attachSteps (msgs : List Message) (currentRequestId : Option String)
    (steps : List ProcessStep) : List Message :=
  msgs.map fun m =>
    if sameId m.requestId currentRequestId && decide (m.type = MsgType.user) then
      { m with processSteps := some steps }
    else m

/-- Handler for `type = 'step'` (lines 437-572). -/
def handleStep (s : ChatState) (stepId : String) : ChatState :=
  if stepId = "generate_suggested_questions" then s
  else
    let workflowType :=
      if stepId = "handle_general_query" ∧ s.workflowType ≠ some WorkflowType.general then
        some WorkflowType.general
      else if stepId = "optimize_search_query" ∧ s.workflowType ≠ some WorkflowType.search then
        some WorkflowType.search
      else s.workflowType
    let stepsToUse :=
      if stepId = "handle_general_query" ∧ s.workflowType ≠ some WorkflowType.general then
        fastForwardSteps s.processSteps
      else s.processSteps
    let stepOrder := if workflowType = some WorkflowType.general then generalOrder else fullOrder
    let updatedSteps :=
      if workflowType ≠ some WorkflowType.general ∨ stepId ≠ "handle_general_query" then
        applyStepSignal (isCompletionSignal stepId) stepOrder stepId stepsToUse
      else stepsToUse
    { s with processSteps := updatedSteps,
             messages := attachSteps s.messages s.currentRequestId updatedSteps,
             workflowType := workflowType }

/-- The stage update of lines 582-587: explicitly complete the stage
whose id equals `completed_step`. -/
def stepCompleteUpdate (completedStep : Option String)
    (steps : List ProcessStep) : List ProcessStep :=
  steps.map fun st =>
    if some st.id = completedStep then { st with status := StepStatus.completed } else st

/-- Handler for `type = 'step_complete'` (lines 573-602). -/
def handleStepComplete (s : ChatState) (completedStep : Option String) : ChatState :=
  if completedStep = some "generate_suggested_questions" then s
  else
    { s with processSteps := stepCompleteUpdate completedStep s.processSteps,
             messages := attachSteps s.messages s.currentRequestId
               (stepCompleteUpdate completedStep s.processSteps) }

/-- Handler for `type = 'search_metadata'` (lines 603-620). -/
def handleSearchMetadata (s : ChatState) (md : Option SearchMetadata) : ChatState :=
  { s with messages := s.messages.map fun m =>
      if sameId m.requestId s.currentRequestId && decide (m.type = MsgType.user) then
        { m with searchMetadata := md }
      else m }

/-- `completeAll`: map a stage list to all-completed (used on first token
and on complete). -/
def completeAll (steps : List ProcessStep) : List ProcessStep :=
  steps.map fun st => { st with status := StepStatus.completed }

/-- findIndex-then-update of lines 632-637: append `tok` to the content
of the first message whose id matches. -/
def appendToFirst (streamId tok : String) : List Message → List Message
  | [] => []
  | m :: rest =>
    if m.id = streamId then { m with content := m.content ++ tok } :: rest
    else m :: appendToFirst streamId tok rest

/-- Handler for `type = 'token'` (lines 624-673). -/
def handleToken (now : Nat) (s : ChatState) (tok : String) : ChatState :=
  match s.currentStreamingMessageId with
  | some streamId => { s with messages := appendToFirst streamId tok s.messages }
  | none =>
    let filtered := s.messages.filter fun m => decide (m.type ≠ MsgType.system)
    let completedSteps := completeAll s.processSteps
    let updatedMessages := attachSteps filtered s.currentRequestId completedSteps
    let newMessageId := toString now ++ "_ai"
    { s with
      messages := updatedMessages ++
        [ { id := newMessageId, type := MsgType.ai, content := tok, isStreaming := true } ],
      currentStreamingMessageId := some newMessageId,
      processSteps := [] }

/-- toolDisplayNames lookup with fallback to the raw name. -/
def toolDisplayName (t : String) : String :=
  if t = "search_products" then "제품 검색"
  else if t = "extract_product_data" then "제품 정보 추출"
  else if t = "scrape_product" then "제품 상세 정보 수집"
  else t

/-- Handler for `type = 'tool_start'` (lines 674-696). -/
def handleToolStart (now : Nat) (s : ChatState)
    (toolName toolInput : Option String) : ChatState :=
  { s with messages := s.messages ++
      [ { id := toString now ++ "_tool", type := MsgType.tool,
          content := "🔧 " ++ toolDisplayName (toolName.getD "") ++ " 중...",
          toolName := toolName, toolInput := toolInput,
          toolStatus := some "running" } ] }

/-- outputSummary of lines 716-727 (string outputs; a non-string output
goes through JSON.stringify first and is then treated the same way). -/
def summarize (output : Option String) : String :=
  if truthyOpt output then
    let o := output.getD ""
    if 100 < o.length then jsSubstring o 100 ++ "..." else o
  else ""

/-- The `(toolName, running)` match of lines 703-705. -/
def toolMatches (toolName : Option String) (m : Message) : Bool :=
  decide (m.type = MsgType.tool) && decide (m.toolName = toolName) &&
    decide (m.toolStatus = some "running")

/-- The completed version of a matched tool message (lines 729-738). -/
def completeToolMsg (toolName output : Option String) (m : Message) : Message :=
  { m with content := "✅ " ++ toolDisplayName (toolName.getD "") ++ " 완료",
           toolOutput := output,
           outputSummary := some (summarize output),
           toolStatus := some "completed" }

/-- Backwards scan of lines 702-741: update the LAST element satisfying
`p` (the loop runs from the end and breaks at the first hit). -/
def updateLast (p : Message → Bool) (g : Message → Message) : List Message → List Message
  | [] => []
  | m :: rest =>
    if rest.any p then m :: updateLast p g rest
    else if p m then g m :: rest
    else m :: rest

/-- Handler for `type = 'tool_end'` (lines 697-743). -/
def handleToolEnd (s : ChatState) (toolName output : Option String) : ChatState :=
  { s with messages :=
      updateLast (toolMatches toolName) (completeToolMsg toolName output) s.messages }

/-- The fallback of lines 752-765: when a final `response` is present
and no streaming message exists, synthesize an assistant entry — but
only if NO ai message exists anywhere in the (system-filtered) list. -/
def completeFallback (now : Nat) (f : Frame) (csmid : Option String)
    (m1 : List Message) : List Message :=
  if truthyOpt f.response && decide (csmid = none) then
    if m1.any (fun m => decide (m.type = MsgType.ai)) then m1
    else m1 ++
      [ { id := toString now ++ "_ai", type := MsgType.ai,
          content := f.response.getD "",
          suggestedQuestions := some (f.suggested_questions.getD []) } ]
  else m1

/-- The finalization map of lines 771-784: mirror the completed stages
into the turn's user message; clear the streaming flag of streaming ai
entries and attach the suggested questions. -/
def completeFix (f : Frame) (crid : Option String)
    (completedSteps : List ProcessStep) (m : Message) : Message :=
  if sameId m.requestId crid && decide (m.type = MsgType.user) then
    { m with processSteps := some completedSteps }
  else if decide (m.type = MsgType.ai) && m.isStreaming then
    { m with isStreaming := false,
             suggestedQuestions := some (f.suggested_questions.getD []) }
  else m

/-- Handler for `type = 'complete'` (lines 744-794). -/
def handleComplete (now : Nat) (s : ChatState) (f : Frame) : ChatState :=
  { s with
    messages := (completeFallback now f s.currentStreamingMessageId
        (s.messages.filter fun m => decide (m.type ≠ MsgType.system))).map
      (completeFix f s.currentRequestId (completeAll s.processSteps)),
    isLoading := false, currentStreamingMessageId := none,
    processSteps := [], currentRequestId := none }

/-- Dispatch on `parsed.type` (the if/else chain of lines 437-795).  A
`step` frame without `current_step` crashes on `stepId.includes` inside
the per-frame try, which the catch turns into "no state change"; the
`none` branches model that net effect. -/
def dispatch (now : Nat) (s : ChatState) (f : Frame) : ChatState :=
  if f.type = some "step" then
    match f.current_step with
    | some stepId => handleStep s stepId
    | none => s
  else if f.type = some "step_complete" then handleStepComplete s f.completed_step
  else if f.type = some "search_metadata" then handleSearchMetadata s f.metadata
  else if f.type = some "generating_start" then s
  else if f.type = some "token" then handleToken now s (f.content.getD "")
  else if f.type = some "tool_start" then handleToolStart now s f.tool_name f.tool_input
  else if f.type = some "tool_end" then handleToolEnd s f.tool_name f.tool_output
  else if f.type = some "complete" then handleComplete now s f
  else s

/-- Net effect of one successfully parsed `data:` payload (lines
417-802).  `if (parsed.error) throw new Error(parsed.error)` is INSIDE
the per-frame per-frame try/catch (parseError), so the thrown error is
caught by the same catch that handles JSON parse failures: it is logged
and processing continues with the next frame — the state is unchanged. -/
def applyData (now : Nat) (s : ChatState) (f : Frame) : ChatState :=
  if truthyOpt f.error then s
  else
    let s1 := if truthyOpt f.session_id then { s with sessionId := f.session_id } else s
    dispatch now s1 f

/-- One decoded stream line: the `[DONE]` sentinel, a parsed payload, or
a dropped line (no data marker, empty, or unparsable JSON). -/
inductive Line where
  | sentinelDone : Line
  | payload : Frame → Line
  | junk : Line

/-- Effect of one line of the stream read loop (lines 407-803). -/
def processLine (now : Nat) (s : ChatState) : Line → ChatState
  | Line.sentinelDone => { s with isLoading := false }
  | Line.payload f => applyData now s f
  | Line.junk => s

/-- The post-chunk / end-of-stream update of lines 806-812. -/
def streamEnd (s : ChatState) : ChatState :=
  { s with isLoading := false }

/-- The outer catch of lines 814-835: transport failure replaces system
messages with a fixed apology entry and closes the turn. -/
def transportFailure (now : Nat) (s : ChatState) : ChatState :=
  { s with isLoading := false, currentStreamingMessageId := none,
           processSteps := [],
           messages := (s.messages.filter fun m => decide (m.type ≠ MsgType.system)) ++
             [ { id := toString now ++ "_error", type := MsgType.ai,
                 content := "죄송합니다. 연결에 문제가 발생했습니다. 잠시 후 다시 시도해주세요." } ] }

/-- Turn creation of lines 340-371 (`sendMessageWithQuery` up to the
fetch): guard, fresh request id from the clock, lazy session id. -/
def startTurn (now : Nat) (uuid : String) (query : String) (s : ChatState) : ChatState :=
  if jsTrim query = "" ∨ s.isLoading then s
  else
    let requestId := toString now
    let userMessage : Message :=
      { id := requestId, type := MsgType.user, content := jsTrim query,
        processSteps := some getProcessSteps, requestId := some requestId }
    let sessionIdToSend := if truthyOpt s.sessionId then s.sessionId.getD "" else uuid
    { s with messages := s.messages ++ [userMessage], isLoading := true,
             sessionId := some sessionIdToSend,
             currentStreamingMessageId := none,
             processSteps := getProcessSteps,
             currentRequestId := some requestId,
             workflowType := none }

/-- The empty initial ChatState of the useState call. -/
def chatInit : ChatState :=
  { messages := [], isLoading := false, sessionId := none,
    currentStreamingMessageId := none, processSteps := [],
    currentRequestId := none, workflowType := none }

/-- States visited while processing a list of `step` signals: the start
state followed by the state after each event. -/
def turnTrace (s : ChatState) : List String → List ChatState
  | [] => [s]
  | x :: xs => s :: turnTrace (handleStep s x) xs

/-! ### Generic helper lemmas -/

lemma handleStep_sessionId (s : ChatState) (x : String) :
    (handleStep s x).sessionId = s.sessionId := by
  unfold handleStep; split <;> rfl

lemma handleStepComplete_sessionId (s : ChatState) (c : Option String) :
    (handleStepComplete s c).sessionId = s.sessionId := by
  unfold handleStepComplete; split <;> rfl

lemma handleToken_sessionId (n : Nat) (s : ChatState) (t : String) :
    (handleToken n s t).sessionId = s.sessionId := by
  unfold handleToken; split <;> rfl

lemma dispatch_sessionId (now : Nat) (s : ChatState) (f : Frame) :
    (dispatch now s f).sessionId = s.sessionId := by
  unfold dispatch
  repeat' split
  all_goals first
    | rfl
    | apply handleStep_sessionId
    | apply handleStepComplete_sessionId
    | apply handleToken_sessionId

/-- A fresh turn over the empty session, used as a concrete input for
witnesses and counterexamples. -/
def demoTurn : ChatState := startTurn 100 "uuid-0" "hello" chatInit

/-! ### C1 -/

/-- C1 names the intended behaviour (fatal error frame), but the code's
`throw new Error(parsed.error)` is caught by the same `catch` that
handles JSON parse failures, which only logs: a frame with a truthy
`error` field leaves the state completely unchanged. -/
theorem thmC1_errorFrameSwallowed (now : Nat) (s : ChatState) (f : Frame)
    (h : truthyOpt f.error = true) : applyData now s f = s := by
  unfold applyData
  rw [if_pos h]

/-- A turn is open (`isLoading = true`), an error frame arrives, and the
state is untouched: the turn stays open, no apology entry is appended —
contradicting C1's claimed fatal handling. -/
theorem witC1_errorFrameSwallowed :
    truthyOpt (Frame.mk none (some "boom") none none none none none none none none none none).error = true ∧
    applyData 12 demoTurn (Frame.mk none (some "boom") none none none none none none none none none none) = demoTurn ∧
    demoTurn.isLoading = true :=
  ⟨by decide,
   thmC1_errorFrameSwallowed 12 demoTurn
     (Frame.mk none (some "boom") none none none none none none none none none none) (by decide),
   by decide⟩

/-! ### C8 -/

/-- C8 as stated is false: a frame with a `session_id` field overwrites
the already-created session id. -/
theorem cexC8_sessionIdOverwritten :
    (applyData 3 { chatInit with sessionId := some "sess-a" }
        { type := some "token", content := some "hi", session_id := some "sess-b" }).sessionId
      ≠ ({ chatInit with sessionId := some "sess-a" } : ChatState).sessionId := by
  decide

/-- C8 amended: once created, the session id is preserved by starting a
new turn and by every frame without a truthy `session_id` field; only a
frame carrying a truthy `session_id` reassigns it. -/
theorem thmC8_sessionIdStableUnlessFrame :
    (∀ (now : Nat) (uuid query : String) (s : ChatState),
       truthyOpt s.sessionId = true →
       (startTurn now uuid query s).sessionId = s.sessionId) ∧
    (∀ (now : Nat) (s : ChatState) (f : Frame),
       truthyOpt f.session_id = false →
       (applyData now s f).sessionId = s.sessionId) := by
  constructor
  · intro now uuid query s h
    obtain ⟨a, ha, hne⟩ : ∃ a, s.sessionId = some a ∧ a ≠ "" := by
      cases hs : s.sessionId with
      | none => simp [truthyOpt, hs] at h
      | some a =>
        refine ⟨a, rfl, ?_⟩
        intro hq
        rw [hq] at hs
        simp [truthyOpt, hs] at h
    unfold startTurn
    by_cases hg : jsTrim query = "" ∨ s.isLoading
    · rw [if_pos hg]
    · rw [if_neg hg]
      simp [ha, hne, truthyOpt]
  · intro now s f h
    unfold applyData
    split
    · rfl
    · rw [if_neg (by rw [h]; simp)]
      apply dispatch_sessionId

/-- Witness for the amended C8 at a concrete session. -/
theorem witC8_sessionIdStableUnlessFrame :
    truthyOpt demoTurn.sessionId = true ∧
    (startTurn 200 "uuid-1" "next" demoTurn).sessionId = demoTurn.sessionId ∧
    truthyOpt (Frame.mk (some "token") none none none none none (some "hi") none none none none none).session_id = false ∧
    (applyData 7 demoTurn (Frame.mk (some "token") none none none none none (some "hi") none none none none none)).sessionId
      = demoTurn.sessionId :=
  ⟨by decide,
   thmC8_sessionIdStableUnlessFrame.1 200 "uuid-1" "next" demoTurn (by decide),
   by decide,
   thmC8_sessionIdStableUnlessFrame.2 7 demoTurn
     (Frame.mk (some "token") none none none none none (some "hi") none none none none none) (by decide)⟩

/-! ### C9 -/

/-- C9: the `[DONE]` sentinel (and the post-chunk update) set only the
loading flag to false; messages, the streaming pointer, the stage list,
the session id, the request id and the workflow variant are untouched. -/
theorem thmC9_doneOnlyClearsLoading (now : Nat) (s : ChatState) :
    processLine now s Line.sentinelDone = { s with isLoading := false } ∧
    (processLine now s Line.sentinelDone).messages = s.messages ∧
    (processLine now s Line.sentinelDone).currentStreamingMessageId = s.currentStreamingMessageId ∧
    (processLine now s Line.sentinelDone).processSteps = s.processSteps ∧
    (processLine now s Line.sentinelDone).sessionId = s.sessionId ∧
    (processLine now s Line.sentinelDone).currentRequestId = s.currentRequestId ∧
    (processLine now s Line.sentinelDone).workflowType = s.workflowType ∧
    (processLine now s Line.sentinelDone).isLoading = false ∧
    streamEnd s = { s with isLoading := false } :=
  ⟨rfl, rfl, rfl, rfl, rfl, rfl, rfl, rfl, rfl⟩

/-! ### C10 -/

/-- C10: a `step` whose signal is `generate_suggested_questions`, and a
`step_complete` whose completed step is `generate_suggested_questions`,
are skipped before any state update (for frames that are plain events:
no error field, no session_id piggyback). -/
theorem thmC10_suggestedQuestionsSkipped (now : Nat) (s : ChatState) (f : Frame)
    (herr : f.error = none) (hsid : f.session_id = none) :
    (f.type = some "step" → f.current_step = some "generate_suggested_questions" →
       applyData now s f = s) ∧
    (f.type = some "step_complete" → f.completed_step = some "generate_suggested_questions" →
       applyData now s f = s) := by
  constructor
  · intro ht hc
    simp [applyData, herr, hsid, truthyOpt, dispatch, ht, hc, handleStep]
  · intro ht hc
    simp [applyData, herr, hsid, truthyOpt, dispatch, ht, hc, handleStepComplete]

/-- Witness for C10 at concrete frames over a fresh turn. -/
theorem witC10_suggestedQuestionsSkipped :
    applyData 1 demoTurn (Frame.mk (some "step") none none (some "generate_suggested_questions") none none none none none none none none) = demoTurn ∧
    applyData 1 demoTurn (Frame.mk (some "step_complete") none none none (some "generate_suggested_questions") none none none none none none none) = demoTurn :=
  ⟨(thmC10_suggestedQuestionsSkipped 1 demoTurn
      (Frame.mk (some "step") none none (some "generate_suggested_questions") none none none none none none none none)
      rfl rfl).1 rfl rfl,
   (thmC10_suggestedQuestionsSkipped 1 demoTurn
      (Frame.mk (some "step_complete") none none none (some "generate_suggested_questions") none none none none none none none)
      rfl rfl).2 rfl rfl⟩

/-! ### Canonical stage profiles (shared by C2, C3, C4) -/

/-- The canonical stage table with an arbitrary status assignment. -/
def stepsWith (g : String → StepStatus) : List ProcessStep :=
  getProcessSteps.map fun st => { st with status := g st.id }

/-- The status a stage of canonical rank `i` has after a progress signal
of rank `r`: earlier completed, matching running, later pending. -/
def rankStatus (r : Int) (id : String) : StepStatus :=
  if jsIndexOf fullOrder id < r then StepStatus.completed
  else if jsIndexOf fullOrder id = r then StepStatus.running
  else StepStatus.pending

/-- The ranks reachable while processing canonical progress signals
(-1 is the fresh-turn profile: everything pending). -/
def rankList : List Int := [-1, 0, 1, 2, 3, 4, 5, 6, 7]

lemma fullOrder_not_special : ∀ x ∈ fullOrder,
    x ≠ "generate_suggested_questions" ∧ x ≠ "handle_general_query" := by decide

lemma stepsWith_status (h : String → StepStatus) :
    ∀ st ∈ stepsWith h, st.status = h st.id := by
  intro st hst
  obtain ⟨st0, hst0, rfl⟩ := List.mem_map.1 hst
  rfl

/-- A canonical progress signal rewrites any canonical status assignment
into the pure rank profile of the signal (the three-way trichotomy of
lines 533-548 covers every stage, so the previous statuses are
irrelevant). -/
lemma applyStepSignal_full (g : String → StepStatus) :
    ∀ x ∈ fullOrder,
      applyStepSignal (isCompletionSignal x) fullOrder x (stepsWith g) =
        stepsWith (rankStatus (canonicalRank x)) := by
  intro x hx
  fin_cases hx <;> rfl

/-- Effect of a canonical (full-order) progress signal on a canonical
turn whose variant is not `general`. -/
lemma handleStep_canon (s : ChatState) (g : String → StepStatus) (x : String)
    (hx : x ∈ fullOrder) (hs : s.processSteps = stepsWith g)
    (hw : s.workflowType ≠ some WorkflowType.general) :
    (handleStep s x).processSteps = stepsWith (rankStatus (canonicalRank x)) ∧
    (handleStep s x).workflowType ≠ some WorkflowType.general := by
  obtain ⟨hgsq, hhgq⟩ := fullOrder_not_special x hx
  have happ := applyStepSignal_full g x hx
  by_cases hosq : x = "optimize_search_query"
  · subst hosq
    by_cases hss : s.workflowType = some WorkflowType.search
    · exact ⟨by simpa [handleStep, hs, hss] using happ, by simp [handleStep, hss]⟩
    · exact ⟨by simpa [handleStep, hs, hss] using happ, by simp [handleStep, hss]⟩
  · cases hwt : s.workflowType with
    | none =>
      exact ⟨by simpa [handleStep, hs, hwt, hgsq, hhgq, hosq] using happ,
             by simp [handleStep, hwt, hgsq, hhgq, hosq]⟩
    | some w =>
      cases w with
      | general => exact absurd hwt hw
      | search =>
        exact ⟨by simpa [handleStep, hs, hwt, hgsq, hhgq, hosq] using happ,
               by simp [handleStep, hwt, hgsq, hhgq, hosq]⟩

lemma fastForwardSteps_mem (steps : List ProcessStep) :
    ∀ st ∈ fastForwardSteps steps,
      (st.id ∈ ffList → st.status = StepStatus.completed) ∧
      (st.id = "generate_final_response" → st.status = StepStatus.running) := by
  intro st hst
  obtain ⟨st0, hst0, rfl⟩ := List.mem_map.1 hst
  by_cases h1 : st0.id ∈ ffList
  · rw [if_pos h1]
    refine ⟨fun _ => rfl, fun hgfr => ?_⟩
    have h2 : st0.id = "generate_final_response" := hgfr
    rw [h2] at h1
    exact absurd h1 (by decide)
  · rw [if_neg h1]
    by_cases h2 : st0.id = "generate_final_response"
    · rw [if_pos h2]
      exact ⟨fun hm => absurd hm h1, fun _ => rfl⟩
    · rw [if_neg h2]
      exact ⟨fun hm => absurd hm h1, fun hg => absurd hg h2⟩

/-! ### C2 -/

/-- C2 as stated is false: after the general fast-forward, a later
`optimize_search_query` step in the same turn re-pins the variant and
reverts `generate_final_response` from running to pending. -/
theorem cexC2_variantNotSticky :
    ((handleStep demoTurn "handle_general_query").processSteps.filter
        (fun st => decide (st.id = "generate_final_response"))).map (fun st => st.status)
      = [StepStatus.running] ∧
    ((handleStep (handleStep demoTurn "handle_general_query") "optimize_search_query").processSteps.filter
        (fun st => decide (st.id = "generate_final_response"))).map (fun st => st.status)
      = [StepStatus.pending] := by
  decide

/-- C2 amended: the `handle_general_query` step pins the variant to
general and fast-forwards (all of start..validate_and_select completed,
generate_final_response running) — but the pin is NOT sticky: a later
`optimize_search_query` step re-pins the variant to search and recomputes
the stages by rank, reverting generate_final_response to pending. -/
theorem thmC2_fastForwardThenRepin :
    (∀ s : ChatState, s.workflowType ≠ some WorkflowType.general →
       (handleStep s "handle_general_query").workflowType = some WorkflowType.general ∧
       ∀ st ∈ (handleStep s "handle_general_query").processSteps,
         (st.id ∈ ffList → st.status = StepStatus.completed) ∧
         (st.id = "generate_final_response" → st.status = StepStatus.running)) ∧
    (∀ (s : ChatState) (g : String → StepStatus), s.processSteps = stepsWith g →
       (handleStep s "optimize_search_query").workflowType = some WorkflowType.search ∧
       ∀ st ∈ (handleStep s "optimize_search_query").processSteps,
         st.id = "generate_final_response" → st.status = StepStatus.pending) := by
  constructor
  · intro s hw
    constructor
    · simp [handleStep, hw]
    · intro st hst
      have hmem : st ∈ fastForwardSteps s.processSteps := by
        simpa [handleStep, hw] using hst
      exact fastForwardSteps_mem s.processSteps st hmem
  · intro s g hsg
    have happ := applyStepSignal_full g "optimize_search_query" (by decide)
    by_cases hss : s.workflowType = some WorkflowType.search
    all_goals
      refine ⟨by simp [handleStep, hss], ?_⟩
    all_goals
      intro st hst hid
    all_goals
      have hps : st ∈ stepsWith (rankStatus (canonicalRank "optimize_search_query")) := by
        rw [← happ]
        simpa [handleStep, hss, hsg] using hst
    all_goals
      have hval := stepsWith_status _ st hps
    all_goals
      rw [hid] at hval
    all_goals
      rw [hval]
    all_goals
      decide

/-- Witness for the amended C2 on a fresh turn. -/
theorem witC2_fastForwardThenRepin :
    demoTurn.workflowType ≠ some WorkflowType.general ∧
    (handleStep demoTurn "handle_general_query").workflowType = some WorkflowType.general ∧
    demoTurn.processSteps = stepsWith (rankStatus (-1)) ∧
    (handleStep demoTurn "optimize_search_query").workflowType = some WorkflowType.search :=
  ⟨by decide,
   (thmC2_fastForwardThenRepin.1 demoTurn (by decide)).1,
   by decide,
   (thmC2_fastForwardThenRepin.2 demoTurn (rankStatus (-1)) (by decide)).1⟩

/-! ### C3 -/

/-- Number of stages currently in state `running`. -/
def countRunning (steps : List ProcessStep) : Nat :=
  (steps.filter fun st => decide (st.status = StepStatus.running)).length

/-- Position-wise monotonicity: nothing completed in `a` is anything but
completed in `b`. -/
def noRevert (a b : List ProcessStep) : Prop :=
  ∀ p ∈ a.zip b, p.1.status = StepStatus.completed → p.2.status = StepStatus.completed

instance (a b : List ProcessStep) : Decidable (noRevert a b) :=
  inferInstanceAs (Decidable (∀ p ∈ a.zip b,
    p.1.status = StepStatus.completed → p.2.status = StepStatus.completed))

lemma running_le_one_profile : ∀ r ∈ rankList,
    countRunning (stepsWith (rankStatus r)) ≤ 1 := by decide

lemma noRevert_profiles : ∀ r1 ∈ rankList, ∀ r2 ∈ rankList,
    ¬ r1 < r2 ∨ noRevert (stepsWith (rankStatus r1)) (stepsWith (rankStatus r2)) := by decide

lemma rank_mem_of_fullOrder : ∀ x ∈ fullOrder,
    canonicalRank x ∈ rankList ∧ -1 < canonicalRank x := by decide

lemma getProcessSteps_profile : getProcessSteps = stepsWith (rankStatus (-1)) := by decide

lemma turnTrace_head (l : List String) (s : ChatState) :
    (turnTrace s l).head? = some s := by
  cases l <;> rfl

lemma turnTrace_aux : ∀ (ids : List String) (r : Int) (s : ChatState),
    r ∈ rankList →
    (∀ x ∈ ids, x ∈ fullOrder) →
    List.Chain' (fun a b : Int => a < b) (r :: ids.map canonicalRank) →
    s.processSteps = stepsWith (rankStatus r) →
    s.workflowType ≠ some WorkflowType.general →
    (∀ t ∈ turnTrace s ids, countRunning t.processSteps ≤ 1) ∧
    List.Chain' (fun a b : ChatState => noRevert a.processSteps b.processSteps)
      (turnTrace s ids) := by
  intro ids
  induction ids with
  | nil =>
    intro r s hr _ _ hs _
    refine ⟨?_, by simp [turnTrace]⟩
    intro t ht
    have he : t = s := by simpa [turnTrace] using ht
    rw [he, hs]
    exact running_le_one_profile r hr
  | cons x xs ih =>
    intro r s hr h1 h2 hs hw
    have hx : x ∈ fullOrder := h1 x (List.mem_cons_self x xs)
    have hcanon := handleStep_canon s (rankStatus r) x hx hs hw
    have hrx := rank_mem_of_fullOrder x hx
    rw [List.map_cons, List.chain'_cons] at h2
    obtain ⟨hlt, hchain⟩ := h2
    have hIH := ih (canonicalRank x) (handleStep s x) hrx.1
      (fun y hy => h1 y (List.mem_cons_of_mem x hy)) hchain hcanon.1 hcanon.2
    have hunfold : turnTrace s (x :: xs) = s :: turnTrace (handleStep s x) xs := rfl
    refine ⟨?_, ?_⟩
    · intro t ht
      rw [hunfold] at ht
      rcases List.mem_cons.1 ht with h | h
      · rw [h, hs]
        exact running_le_one_profile r hr
      · exact hIH.1 t h
    · rw [hunfold, List.chain'_cons']
      refine ⟨?_, hIH.2⟩
      intro b hb
      rw [turnTrace_head] at hb
      have hbe : handleStep s x = b := by simpa using hb
      rw [← hbe, hs, hcanon.1]
      rcases noRevert_profiles r hr (canonicalRank x) hrx.1 with h | h
      · exact absurd hlt h
      · exact h

/-- C3: over a fresh turn, any sequence of canonical progress signals
with strictly increasing canonical rank keeps at most one stage running
after every event, and never moves a completed stage back to pending or
running. -/
theorem thmC3_monotoneSingleRunning (ids : List String) (s0 : ChatState)
    (h1 : ∀ x ∈ ids, x ∈ fullOrder)
    (h2 : List.Chain' (fun a b => canonicalRank a < canonicalRank b) ids)
    (h3 : s0.processSteps = getProcessSteps)
    (h4 : s0.workflowType = none) :
    (∀ t ∈ turnTrace s0 ids, countRunning t.processSteps ≤ 1) ∧
    List.Chain' (fun a b : ChatState => noRevert a.processSteps b.processSteps)
      (turnTrace s0 ids) := by
  have hch : List.Chain' (fun a b : Int => a < b) ((-1) :: ids.map canonicalRank) := by
    rw [List.chain'_cons']
    constructor
    · intro b hb
      cases ids with
      | nil => simp at hb
      | cons x xs =>
        rw [List.map_cons, List.head?_cons] at hb
        have hbe : canonicalRank x = b := by simpa using hb
        rw [← hbe]
        exact (rank_mem_of_fullOrder x (h1 x (List.mem_cons_self x xs))).2
    · rw [List.chain'_map]
      exact h2
  exact turnTrace_aux ids (-1) s0 (by decide) h1 hch
    (by rw [h3]; exact getProcessSteps_profile)
    (by rw [h4]; simp)

/-- Witness for C3: a concrete increasing signal sequence over a fresh
turn. -/
theorem witC3_monotoneSingleRunning :
    (∀ x ∈ ["start", "analyze_query", "search_products"], x ∈ fullOrder) ∧
    List.Chain' (fun a b => canonicalRank a < canonicalRank b)
      ["start", "analyze_query", "search_products"] ∧
    demoTurn.processSteps = getProcessSteps ∧
    demoTurn.workflowType = none ∧
    ((∀ t ∈ turnTrace demoTurn ["start", "analyze_query", "search_products"],
        countRunning t.processSteps ≤ 1) ∧
     List.Chain' (fun a b : ChatState => noRevert a.processSteps b.processSteps)
       (turnTrace demoTurn ["start", "analyze_query", "search_products"])) :=
  ⟨by decide,
   by rw [List.chain'_cons, List.chain'_cons]
      exact ⟨by decide, by decide, List.chain'_singleton _⟩,
   by decide, by decide,
   thmC3_monotoneSingleRunning ["start", "analyze_query", "search_products"] demoTurn
     (by decide)
     (by rw [List.chain'_cons, List.chain'_cons]
         exact ⟨by decide, by decide, List.chain'_singleton _⟩)
     (by decide) (by decide)⟩

/-! ### C4 -/

/-- The six completion tokens recognized by lines 504-521. -/
def completionTokens : List String :=
  [ "query_analyzed", "search_optimized", "search_completed",
    "links_filtered", "data_extracted", "products_selected" ]

lemma completionUpdate_noop (x : String) (hx : x ∉ completionTokens)
    (st : ProcessStep) : completionUpdate x st = st := by
  simp only [completionTokens, List.mem_cons, List.not_mem_nil, or_false, not_or] at hx
  obtain ⟨h1, h2, h3, h4, h5, h6⟩ := hx
  unfold completionUpdate
  rw [if_neg (fun hc => h1 hc.1), if_neg (fun hc => h2 hc.1),
      if_neg (fun hc => h3 hc.1), if_neg (fun hc => h4 hc.1),
      if_neg (fun hc => h5 hc.1), if_neg (fun hc => h6 hc.1)]

lemma applyStepSignal_completion_noop (order : List String) (x : String)
    (hx : x ∉ completionTokens) (l : List ProcessStep) :
    applyStepSignal true order x l = l := by
  have hmap : applyStepSignal true order x l = l.map (completionUpdate x) := rfl
  have h : ∀ st ∈ l, completionUpdate x st = id st :=
    fun st _ => completionUpdate_noop x hx st
  rw [hmap, List.map_congr_left h, List.map_id]

lemma attachSteps_sync (msgs : List Message) (crid : Option String)
    (steps : List ProcessStep)
    (h : ∀ m ∈ msgs,
      (sameId m.requestId crid && decide (m.type = MsgType.user)) = true →
      m.processSteps = some steps) :
    attachSteps msgs crid steps = msgs := by
  unfold attachSteps
  have hc : ∀ m ∈ msgs,
      (if sameId m.requestId crid && decide (m.type = MsgType.user) then
        { m with processSteps := some steps } else m) = id m := by
    intro m hm
    by_cases hb : (sameId m.requestId crid && decide (m.type = MsgType.user)) = true
    · rw [if_pos hb, ← h m hm hb]
      rfl
    · rw [if_neg hb]
      rfl
  rw [List.map_congr_left hc, List.map_id]

lemma stepCompleteUpdate_noop (cs : String) (steps : List ProcessStep)
    (h : ∀ st ∈ steps, st.id ≠ cs) :
    stepCompleteUpdate (some cs) steps = steps := by
  unfold stepCompleteUpdate
  have hc : ∀ st ∈ steps,
      (if some st.id = some cs then { st with status := StepStatus.completed } else st) = id st := by
    intro st hst
    rw [if_neg (fun hcc => h st hst (Option.some.inj hcc))]
    rfl
  rw [List.map_congr_left hc, List.map_id]

lemma jsIndexOf_not_mem (l : List String) (x : String) (h : x ∉ l) :
    jsIndexOf l x = -1 := by
  induction l with
  | nil => rfl
  | cons y t ih =>
    rw [List.mem_cons, not_or] at h
    unfold jsIndexOf
    rw [if_neg (fun hc => h.1 hc.symm), ih h.2]
    norm_num

lemma jsIndexOf_nonneg (l : List String) (x : String) (h : x ∈ l) :
    0 ≤ jsIndexOf l x := by
  induction l with
  | nil => cases h
  | cons y t ih =>
    unfold jsIndexOf
    by_cases hy : y = x
    · rw [if_pos hy]
    · rw [if_neg hy]
      have hx : x ∈ t := by
        rcases List.mem_cons.1 h with h1 | h1
        · exact absurd h1.symm hy
        · exact h1
      have h0 := ih hx
      rw [if_neg (by omega)]
      omega

lemma applyStepSignal_unknown (x : String)
    (hx : x ∉ fullOrder) (hals : x ≠ "extracting_product_details")
    (g : String → StepStatus) :
    applyStepSignal false fullOrder x (stepsWith g) =
      stepsWith (fun _ => StepStatus.pending) := by
  have hrk : jsIndexOf fullOrder x = -1 := jsIndexOf_not_mem _ _ hx
  unfold stepsWith applyStepSignal
  rw [List.map_map]
  apply List.map_congr_left
  intro st hst
  have hmem : st.id ∈ fullOrder := by fin_cases hst <;> decide
  have hne : st.id ≠ x := fun he => hx (he ▸ hmem)
  have hnn := jsIndexOf_nonneg _ _ hmem
  simp only [Function.comp_apply]
  rw [if_neg (by decide), if_neg (by rw [hrk]; omega),
      if_neg (by rintro (hc | hc); exact hne hc; exact hals hc.1),
      if_pos (by rw [hrk]; omega)]

/-- C4 as stated is false: an unrecognized step signal WITHOUT an
underscore (here "mystery") is handled as a progress signal of rank -1,
which forces every stage of the turn back to pending — after
`step(start)` put the start stage into running, processing
`step(mystery)` changes the stage list. -/
theorem cexC4_unknownSignalNotNoop :
    (handleStep (handleStep demoTurn "start") "mystery").processSteps
      ≠ (handleStep demoTurn "start").processSteps := by
  decide

/-- C4 amended: an unrecognized `step_complete` id and an unrecognized
`step` signal containing an underscore (classified as a completion
token) leave the stage list unchanged — and the whole state unchanged
when the turn's user message already mirrors the global stage list; but
an unrecognized `step` signal without an underscore is treated as a
progress signal of rank -1 and resets every stage of the turn to
pending. -/
theorem thmC4_unrecognizedSignals :
    (∀ (s : ChatState) (cs : String),
       cs ≠ "generate_suggested_questions" →
       (∀ st ∈ s.processSteps, st.id ≠ cs) →
       (handleStepComplete s (some cs)).processSteps = s.processSteps ∧
       ((∀ m ∈ s.messages,
           (sameId m.requestId s.currentRequestId && decide (m.type = MsgType.user)) = true →
           m.processSteps = some s.processSteps) →
         handleStepComplete s (some cs) = s)) ∧
    (∀ (s : ChatState) (x : String),
       isCompletionSignal x = true → x ∉ completionTokens →
       (handleStep s x).processSteps = s.processSteps ∧
       ((∀ m ∈ s.messages,
           (sameId m.requestId s.currentRequestId && decide (m.type = MsgType.user)) = true →
           m.processSteps = some s.processSteps) →
         handleStep s x = s)) ∧
    (∀ (s : ChatState) (g : String → StepStatus) (x : String),
       '_' ∉ x.data → x ∉ fullOrder →
       s.processSteps = stepsWith g → s.workflowType ≠ some WorkflowType.general →
       (handleStep s x).processSteps = stepsWith (fun _ => StepStatus.pending)) := by
  refine ⟨?_, ?_, ?_⟩
  · intro s cs hgsq hunk
    have hneq : ¬ (some cs = some "generate_suggested_questions") :=
      fun hc => hgsq (Option.some.inj hc)
    have hnoop := stepCompleteUpdate_noop cs s.processSteps hunk
    constructor
    · unfold handleStepComplete
      rw [if_neg hneq, hnoop]
    · intro hsync
      unfold handleStepComplete
      rw [if_neg hneq, hnoop,
          attachSteps_sync s.messages s.currentRequestId s.processSteps hsync]
  · intro s x hcomp htok
    have hnp : x ∉ progressIds := by
      unfold isCompletionSignal at hcomp
      simp only [Bool.and_eq_true, Bool.not_eq_true', decide_eq_false_iff_not,
        decide_eq_true_eq] at hcomp
      exact hcomp.2
    have hgsq : x ≠ "generate_suggested_questions" := fun he => hnp (by rw [he]; decide)
    have hhgq : x ≠ "handle_general_query" := fun he => hnp (by rw [he]; decide)
    have hosq : x ≠ "optimize_search_query" := fun he => hnp (by rw [he]; decide)
    have hnoop := applyStepSignal_completion_noop
      (if s.workflowType = some WorkflowType.general then generalOrder else fullOrder)
      x htok s.processSteps
    constructor
    · simp [handleStep, hgsq, hhgq, hosq, hcomp, hnoop]
    · intro hsync
      have hatt := attachSteps_sync s.messages s.currentRequestId s.processSteps hsync
      simp [handleStep, hgsq, hhgq, hosq, hcomp, hnoop, hatt]
  · intro s g x hund hxfo hs hw
    have hgsq : x ≠ "generate_suggested_questions" := fun he => hund (by rw [he]; decide)
    have hhgq : x ≠ "handle_general_query" := fun he => hund (by rw [he]; decide)
    have hosq : x ≠ "optimize_search_query" := fun he => hund (by rw [he]; decide)
    have hals : x ≠ "extracting_product_details" := fun he => hund (by rw [he]; decide)
    have hfalse : isCompletionSignal x = false := by
      unfold isCompletionSignal
      rw [decide_eq_false hund]
      rfl
    have hnoop := applyStepSignal_unknown x hxfo hals g
    cases hwt : s.workflowType with
    | none => simp [handleStep, hgsq, hhgq, hosq, hfalse, hwt, hs, hnoop]
    | some w =>
      cases w with
      | general => exact absurd hwt hw
      | search => simp [handleStep, hgsq, hhgq, hosq, hfalse, hwt, hs, hnoop]

/-- Witness for the amended C4: the three regimes at concrete inputs
over a fresh turn (whose user message mirrors the global stage list). -/
theorem witC4_unrecognizedSignals :
    (∀ st ∈ demoTurn.processSteps, st.id ≠ "mystery_step") ∧
    handleStepComplete demoTurn (some "mystery_step") = demoTurn ∧
    isCompletionSignal "mystery_step" = true ∧
    handleStep demoTurn "mystery_step" = demoTurn ∧
    (handleStep demoTurn "mystery").processSteps = stepsWith (fun _ => StepStatus.pending) :=
  ⟨by decide,
   (thmC4_unrecognizedSignals.1 demoTurn "mystery_step" (by decide) (by decide)).2 (by decide),
   by decide,
   (thmC4_unrecognizedSignals.2.1 demoTurn "mystery_step" (by decide) (by decide)).2 (by decide),
   thmC4_unrecognizedSignals.2.2 demoTurn (rankStatus (-1)) "mystery"
     (by decide) (by decide) (by decide) (by decide)⟩

/-! ### C5 -/

lemma handleToken_some (n : Nat) (s : ChatState) (tok i : String)
    (h : s.currentStreamingMessageId = some i) :
    handleToken n s tok = { s with messages := appendToFirst i tok s.messages } := by
  unfold handleToken
  rw [h]

lemma handleToken_none (n : Nat) (s : ChatState) (tok : String)
    (h : s.currentStreamingMessageId = none) :
    handleToken n s tok = { s with
      messages := attachSteps (s.messages.filter fun m => decide (m.type ≠ MsgType.system))
          s.currentRequestId (completeAll s.processSteps) ++
        [ { id := toString n ++ "_ai", type := MsgType.ai, content := tok,
            isStreaming := true } ],
      currentStreamingMessageId := some (toString n ++ "_ai"),
      processSteps := [] } := by
  unfold handleToken
  rw [h]

lemma attachSteps_shape (msgs : List Message) (crid : Option String)
    (steps : List ProcessStep) :
    ∀ m ∈ attachSteps msgs crid steps, ∃ m0 ∈ msgs,
      m.id = m0.id ∧ m.type = m0.type ∧ m.isStreaming = m0.isStreaming := by
  intro m hm
  obtain ⟨m0, hm0, rfl⟩ := List.mem_map.1 hm
  refine ⟨m0, hm0, ?_⟩
  by_cases hb : (sameId m0.requestId crid && decide (m0.type = MsgType.user)) = true
  · rw [if_pos hb]
    exact ⟨rfl, rfl, rfl⟩
  · rw [if_neg hb]
    exact ⟨rfl, rfl, rfl⟩

lemma appendToFirst_last (l : List Message) (n : Message) (i tok : String)
    (hn : n.id = i) (h : ∀ m ∈ l, m.id ≠ i) :
    appendToFirst i tok (l ++ [n]) = l ++ [{ n with content := n.content ++ tok }] := by
  induction l with
  | nil =>
    simp only [List.nil_append, appendToFirst]
    rw [if_pos hn]
  | cons m t ih =>
    have hm : m.id ≠ i := h m (List.mem_cons_self m t)
    simp only [List.cons_append, appendToFirst, List.append_eq]
    rw [if_neg hm, ih (fun m' hm' => h m' (List.mem_cons_of_mem _ hm'))]

/-- C5: within one turn, the first token removes the system entries,
completes the turn's mirrored stages, and creates the single streaming
assistant entry; the second token appends to that same entry, yielding
content `tA ++ tB`, exactly one streaming entry, and exactly one new
entry overall.  Freshness of the clock-derived id is the hypothesis
`h3` (the code relies on `Date.now()` not colliding with older ids). -/
theorem thmC5_tokenStreaming (now later : Nat) (tA tB : String) (s : ChatState)
    (h1 : s.currentStreamingMessageId = none)
    (h2 : ∀ m ∈ s.messages, m.isStreaming = false)
    (h3 : ∀ m ∈ s.messages, m.id ≠ toString now ++ "_ai") :
    (∀ m ∈ (handleToken now s tA).messages, m.type ≠ MsgType.system) ∧
    (∀ m ∈ (handleToken now s tA).messages,
       (sameId m.requestId s.currentRequestId && decide (m.type = MsgType.user)) = true →
       ∀ st ∈ m.processSteps.getD [], st.status = StepStatus.completed) ∧
    (handleToken now s tA).currentStreamingMessageId = some (toString now ++ "_ai") ∧
    (handleToken later (handleToken now s tA) tB).currentStreamingMessageId
      = some (toString now ++ "_ai") ∧
    (handleToken later (handleToken now s tA) tB).messages.filter (fun m => m.isStreaming)
      = [{ id := toString now ++ "_ai", type := MsgType.ai, content := tA ++ tB,
           isStreaming := true }] ∧
    (handleToken later (handleToken now s tA) tB).messages.length
      = (s.messages.filter fun m => decide (m.type ≠ MsgType.system)).length + 1 := by
  have hs1 := handleToken_none now s tA h1
  have hBfacts : ∀ m ∈ attachSteps (s.messages.filter fun m => decide (m.type ≠ MsgType.system))
      s.currentRequestId (completeAll s.processSteps),
      m.isStreaming = false ∧ m.id ≠ toString now ++ "_ai" ∧ m.type ≠ MsgType.system := by
    intro m hm
    obtain ⟨m0, hm0, hid, hty, hstr⟩ := attachSteps_shape _ _ _ m hm
    have hm0s : m0 ∈ s.messages := List.mem_of_mem_filter hm0
    have hnotsys : m0.type ≠ MsgType.system := by
      have := (List.mem_filter.1 hm0).2
      exact of_decide_eq_true this
    refine ⟨by rw [hstr]; exact h2 m0 hm0s, by rw [hid]; exact h3 m0 hm0s,
      by rw [hty]; exact hnotsys⟩
  have hcs1 : (handleToken now s tA).currentStreamingMessageId
      = some (toString now ++ "_ai") := by rw [hs1]
  have hs2 := handleToken_some later (handleToken now s tA) tB (toString now ++ "_ai") hcs1
  rw [hs1] at hs2
  have happ := appendToFirst_last _
      { id := toString now ++ "_ai", type := MsgType.ai, content := tA, isStreaming := true }
      (toString now ++ "_ai") tB rfl (fun m hm => (hBfacts m hm).2.1)
  rw [happ] at hs2
  refine ⟨?_, ?_, hcs1, ?_, ?_, ?_⟩
  · intro m hm
    rw [hs1] at hm
    rcases List.mem_append.1 hm with hm | hm
    · exact (hBfacts m hm).2.2
    · rw [List.mem_singleton.1 hm]
      intro hc
      cases hc
  · intro m hm hcond
    rw [hs1] at hm
    rcases List.mem_append.1 hm with hm | hm
    · obtain ⟨m0, hm0, hmeq⟩ := List.mem_map.1 hm
      by_cases hb : (sameId m0.requestId s.currentRequestId && decide (m0.type = MsgType.user)) = true
      · rw [if_pos hb] at hmeq
        rw [← hmeq]
        intro st hst
        simp only [Option.getD_some] at hst
        obtain ⟨st0, _, rfl⟩ := List.mem_map.1 hst
        rfl
      · rw [if_neg hb] at hmeq
        rw [← hmeq] at hcond
        exact absurd hcond hb
    · rw [List.mem_singleton.1 hm] at hcond
      simp [sameId] at hcond
  · rw [hs1, hs2]
  · rw [hs1, hs2]
    show List.filter _ (_ ++ [_]) = _
    rw [List.filter_append]
    have hB0 : (attachSteps (s.messages.filter fun m => decide (m.type ≠ MsgType.system))
        s.currentRequestId (completeAll s.processSteps)).filter (fun m => m.isStreaming) = [] := by
      rw [List.filter_eq_nil_iff]
      intro m hm
      rw [(hBfacts m hm).1]
      decide
    rw [hB0]
    rfl
  · rw [hs1, hs2]
    show (_ ++ [_]).length = _
    rw [List.length_append]
    unfold attachSteps
    rw [List.length_map]
    rfl

/-- A mid-turn state for the C5 witness: one user message of the open
turn and one system progress indicator. -/
def c5State : ChatState :=
  { messages :=
      [ { id := "50", type := MsgType.user, content := "q",
          processSteps := some getProcessSteps, requestId := some "50" },
        { id := "sys1", type := MsgType.system, content := "progress" } ],
    isLoading := true, sessionId := some "sess",
    currentStreamingMessageId := none, processSteps := getProcessSteps,
    currentRequestId := some "50", workflowType := none }

/-- Witness for C5: tokens "A" then "B" over `c5State` produce the single
streaming assistant entry with content "AB". -/
theorem witC5_tokenStreaming :
    c5State.currentStreamingMessageId = none ∧
    (∀ m ∈ c5State.messages, m.isStreaming = false) ∧
    (∀ m ∈ c5State.messages, m.id ≠ toString 60 ++ "_ai") ∧
    (handleToken 61 (handleToken 60 c5State "A") "B").messages.filter (fun m => m.isStreaming)
      = [{ id := toString 60 ++ "_ai", type := MsgType.ai, content := "A" ++ "B",
           isStreaming := true }] :=
  ⟨by decide, by decide, by decide,
   (thmC5_tokenStreaming 60 61 "A" "B" c5State (by decide) (by decide) (by decide)).2.2.2.2.1⟩

/-! ### C6 -/

lemma updateLast_append (p : Message → Bool) (g : Message → Message)
    (pre post : List Message) (m : Message)
    (hm : p m = true) (hpost : ∀ x ∈ post, p x = false) :
    updateLast p g (pre ++ m :: post) = pre ++ g m :: post := by
  induction pre with
  | nil =>
    have hany : post.any p = false := by
      rw [List.any_eq_false]
      intro x hx
      simp [hpost x hx]
    simp [updateLast, hany, hm]
  | cons a t ih =>
    have hany : (t ++ m :: post).any p = true := by
      rw [List.any_eq_true]
      exact ⟨m, by simp, hm⟩
    simp [updateLast, hany, ih]

lemma updateLast_noop (p : Message → Bool) (g : Message → Message)
    (l : List Message) (h : ∀ x ∈ l, p x = false) :
    updateLast p g l = l := by
  induction l with
  | nil => rfl
  | cons m t ih =>
    have hany : t.any p = false := by
      rw [List.any_eq_false]
      intro x hx
      simp [h x (List.mem_cons_of_mem _ hx)]
    have hm : p m = false := h m (List.mem_cons_self m t)
    simp [updateLast, hany, hm, ih (fun x hx => h x (List.mem_cons_of_mem _ hx))]

lemma summarize_short (o : String) (h : o.length ≤ 100) :
    summarize (some o) = o := by
  by_cases he : o = ""
  · subst he
    rfl
  · have ht : truthyOpt (some o) = true := by simp [truthyOpt, he]
    unfold summarize
    rw [if_pos ht]
    simp only [Option.getD_some]
    rw [if_neg (by omega)]

lemma summarize_long (o : String) (h : 100 < o.length) :
    summarize (some o) = jsSubstring o 100 ++ "..." ∧
    (summarize (some o)).length = 103 := by
  have hne : o ≠ "" := by
    intro he
    subst he
    exact absurd h (by decide)
  have ht : truthyOpt (some o) = true := by simp [truthyOpt, hne]
  have he1 : summarize (some o) = jsSubstring o 100 ++ "..." := by
    unfold summarize
    rw [if_pos ht]
    simp only [Option.getD_some]
    rw [if_pos h]
  refine ⟨he1, ?_⟩
  rw [he1, String.length_append]
  have hsub : (jsSubstring o 100).length = 100 := by
    show (o.data.take 100).length = 100
    rw [List.length_take]
    have hd : o.data.length = o.length := rfl
    omega
  rw [hsub]
  rfl

/-- A single running tool entry, and a state holding just it. -/
def toolMsgDemo : Message :=
  { id := "1_tool", type := MsgType.tool, content := "c",
    toolName := some "search_products", toolStatus := some "running" }

def toolStateDemo : ChatState :=
  { chatInit with isLoading := true, messages := [toolMsgDemo] }

/-- A 101-character tool output. -/
def longOutput : String := String.mk (List.replicate 101 'a')

/-- C6 as stated is false: for a 101-character tool output, the attached
summary is the first 100 characters plus "...", i.e. 103 characters —
not at most 100. -/
theorem cexC6_summaryExceeds100 :
    ¬ (∀ m ∈ (handleToolEnd toolStateDemo (some "search_products")
          (some longOutput)).messages,
        (m.outputSummary.getD "").length ≤ 100) := by
  decide

/-- C6 amended: `tool_end` completes exactly the most recent matching
running tool entry (scan from the newest), attaching a summary that is
the output itself when it has at most 100 characters and otherwise the
first 100 characters followed by "..." (103 characters total); with no
matching running entry the event changes nothing. -/
theorem thmC6_toolEndMatching :
    (∀ (s : ChatState) (t o : String) (pre post : List Message) (m : Message),
       s.messages = pre ++ m :: post →
       toolMatches (some t) m = true →
       (∀ x ∈ post, toolMatches (some t) x = false) →
       (handleToolEnd s (some t) (some o)).messages
         = pre ++ completeToolMsg (some t) (some o) m :: post ∧
       (completeToolMsg (some t) (some o) m).outputSummary = some (summarize (some o)) ∧
       (completeToolMsg (some t) (some o) m).toolStatus = some "completed") ∧
    (∀ o : String, o.length ≤ 100 → summarize (some o) = o) ∧
    (∀ o : String, 100 < o.length →
       summarize (some o) = jsSubstring o 100 ++ "..." ∧
       (summarize (some o)).length = 103) ∧
    (∀ (s : ChatState) (t o : String),
       (∀ x ∈ s.messages, toolMatches (some t) x = false) →
       handleToolEnd s (some t) (some o) = s) := by
  refine ⟨?_, summarize_short, summarize_long, ?_⟩
  · intro s t o pre post m hpre hm hpost
    refine ⟨?_, rfl, rfl⟩
    unfold handleToolEnd
    show updateLast _ _ s.messages = _
    rw [hpre, updateLast_append _ _ pre post m hm hpost]
  · intro s t o h
    unfold handleToolEnd
    rw [updateLast_noop _ _ s.messages h]

/-- Witness for the amended C6 at concrete inputs. -/
theorem witC6_toolEndMatching :
    toolMatches (some "search_products") toolMsgDemo = true ∧
    (handleToolEnd toolStateDemo (some "search_products") (some "ok")).messages
      = [completeToolMsg (some "search_products") (some "ok") toolMsgDemo] ∧
    ("ok".length ≤ 100 ∧ summarize (some "ok") = "ok") ∧
    (100 < longOutput.length ∧ (summarize (some longOutput)).length = 103) ∧
    handleToolEnd chatInit (some "search_products") (some "ok") = chatInit :=
  ⟨by decide,
   (thmC6_toolEndMatching.1 toolStateDemo
      "search_products" "ok" [] [] toolMsgDemo rfl (by decide) (by decide)).1,
   ⟨by decide, thmC6_toolEndMatching.2.1 "ok" (by decide)⟩,
   ⟨by decide, (thmC6_toolEndMatching.2.2.1 longOutput (by decide)).2⟩,
   thmC6_toolEndMatching.2.2.2 chatInit "search_products" "ok" (by decide)⟩

/-! ### C7 -/

lemma sameId_none (b : Option String) : sameId none b = false := by
  cases b <;> rfl

lemma completeFix_type (f : Frame) (crid : Option String)
    (cs : List ProcessStep) (m : Message) :
    (completeFix f crid cs m).type = m.type := by
  unfold completeFix
  split_ifs <;> rfl

lemma completeFix_requestId (f : Frame) (crid : Option String)
    (cs : List ProcessStep) (m : Message) :
    (completeFix f crid cs m).requestId = m.requestId := by
  unfold completeFix
  split_ifs <;> rfl

lemma completeFix_stream (f : Frame) (crid : Option String)
    (cs : List ProcessStep) (m : Message)
    (h : m.isStreaming = true → m.type = MsgType.ai) :
    (completeFix f crid cs m).isStreaming = false := by
  unfold completeFix
  split_ifs with h1 h2
  · cases hms : m.isStreaming with
    | false => rfl
    | true =>
      have hty := h hms
      rw [Bool.and_eq_true] at h1
      have := of_decide_eq_true h1.2
      rw [hty] at this
      cases this
  · rfl
  · cases hms : m.isStreaming with
    | false => rfl
    | true =>
      exact absurd (by rw [Bool.and_eq_true]; exact ⟨decide_eq_true (h hms), hms⟩) h2

lemma completeFallback_mem (now : Nat) (f : Frame) (c : Option String)
    (m1 : List Message) :
    ∀ m ∈ completeFallback now f c m1, m ∈ m1 ∨ m.type = MsgType.ai := by
  intro m hm
  unfold completeFallback at hm
  split_ifs at hm with h1 h2
  · exact Or.inl hm
  · rcases List.mem_append.1 hm with h | h
    · exact Or.inl h
    · right
      rw [List.mem_singleton.1 h]
  · exact Or.inl hm

/-- C7 as stated is false: in a second turn that streamed no tokens, the
`complete` fallback is suppressed because an assistant entry from the
FIRST turn exists — the final response text "hello" is dropped, no
assistant entry containing it is created. -/
theorem cexC7_fallbackSuppressed :
    ({ messages :=
         [ { id := "1_ai", type := MsgType.ai, content := "prev answer" },
           { id := "2", type := MsgType.user, content := "q2",
             processSteps := some getProcessSteps, requestId := some "2" } ],
       isLoading := true, sessionId := some "sess",
       currentStreamingMessageId := none, processSteps := getProcessSteps,
       currentRequestId := some "2", workflowType := none } : ChatState).currentStreamingMessageId
      = none ∧
    ((handleComplete 9
        { messages :=
            [ { id := "1_ai", type := MsgType.ai, content := "prev answer" },
              { id := "2", type := MsgType.user, content := "q2",
                processSteps := some getProcessSteps, requestId := some "2" } ],
          isLoading := true, sessionId := some "sess",
          currentStreamingMessageId := none, processSteps := getProcessSteps,
          currentRequestId := some "2", workflowType := none }
        { type := some "complete", response := some "hello",
          suggested_questions := some ["Q1"] }).messages.filter
      (fun m => decide (m.content = "hello"))) = [] := by
  decide

/-- C7 amended: the fallback assistant entry is synthesized only when no
assistant entry exists anywhere in the conversation (effectively only on
the first turn); in every turn, `complete` removes system entries,
clears every streaming flag, completes the turn's mirrored stages, and
closes the open turn. -/
theorem thmC7_completeFinalizes :
    (∀ (now : Nat) (s : ChatState) (f : Frame),
       truthyOpt f.response = true → s.currentStreamingMessageId = none →
       (∀ m ∈ s.messages, m.type ≠ MsgType.ai) →
       (handleComplete now s f).messages.filter (fun m => decide (m.type = MsgType.ai))
         = [ { id := toString now ++ "_ai", type := MsgType.ai,
               content := f.response.getD "",
               suggestedQuestions := some (f.suggested_questions.getD []) } ]) ∧
    (∀ (now : Nat) (s : ChatState) (f : Frame),
       (∀ m ∈ s.messages, m.isStreaming = true → m.type = MsgType.ai) →
       (∀ m ∈ (handleComplete now s f).messages,
          m.type ≠ MsgType.system ∧ m.isStreaming = false) ∧
       (∀ m ∈ (handleComplete now s f).messages,
          (sameId m.requestId s.currentRequestId && decide (m.type = MsgType.user)) = true →
          ∀ st ∈ m.processSteps.getD [], st.status = StepStatus.completed) ∧
       (handleComplete now s f).isLoading = false ∧
       (handleComplete now s f).currentStreamingMessageId = none ∧
       (handleComplete now s f).currentRequestId = none ∧
       (handleComplete now s f).processSteps = []) := by
  constructor
  · intro now s f hresp hcs hnoai
    have hany : (s.messages.filter fun m => decide (m.type ≠ MsgType.system)).any
        (fun m => decide (m.type = MsgType.ai)) = false := by
      rw [List.any_eq_false]
      intro m hm
      simp [hnoai m (List.mem_of_mem_filter hm)]
    have hfb : completeFallback now f s.currentStreamingMessageId
        (s.messages.filter fun m => decide (m.type ≠ MsgType.system))
        = (s.messages.filter fun m => decide (m.type ≠ MsgType.system)) ++
          [ { id := toString now ++ "_ai", type := MsgType.ai,
              content := f.response.getD "",
              suggestedQuestions := some (f.suggested_questions.getD []) } ] := by
      unfold completeFallback
      rw [hcs, hresp, hany]
      rfl
    show (List.map _ (completeFallback _ _ _ _)).filter _ = _
    rw [hfb, List.map_append, List.filter_append]
    have h1 : ((s.messages.filter fun m => decide (m.type ≠ MsgType.system)).map
        (completeFix f s.currentRequestId (completeAll s.processSteps))).filter
        (fun m => decide (m.type = MsgType.ai)) = [] := by
      rw [List.filter_eq_nil_iff]
      intro m hm
      obtain ⟨m0, hm0, rfl⟩ := List.mem_map.1 hm
      simp [completeFix_type, hnoai m0 (List.mem_of_mem_filter hm0)]
    rw [h1]
    have h2 : completeFix f s.currentRequestId (completeAll s.processSteps)
        { id := toString now ++ "_ai", type := MsgType.ai,
          content := f.response.getD "",
          suggestedQuestions := some (f.suggested_questions.getD []) }
        = { id := toString now ++ "_ai", type := MsgType.ai,
            content := f.response.getD "",
            suggestedQuestions := some (f.suggested_questions.getD []) } := by
      unfold completeFix
      simp [sameId_none]
    simp [h2]
  · intro now s f hstr
    refine ⟨?_, ?_, rfl, rfl, rfl, rfl⟩
    · intro m hm
      obtain ⟨m0, hm0, rfl⟩ := List.mem_map.1 hm
      rcases completeFallback_mem now f s.currentStreamingMessageId _ m0 hm0 with h | h
      · have hnotsys : m0.type ≠ MsgType.system :=
          of_decide_eq_true (List.mem_filter.1 h).2
        refine ⟨(by rw [completeFix_type]; exact hnotsys), ?_⟩
        exact completeFix_stream f _ _ m0
          (fun hms => hstr m0 (List.mem_of_mem_filter h) hms)
      · refine ⟨(by rw [completeFix_type, h]; intro hc; cases hc), ?_⟩
        refine completeFix_stream f _ _ m0 (fun _ => h)
    · intro m hm hcond
      obtain ⟨m0, hm0, rfl⟩ := List.mem_map.1 hm
      rw [completeFix_requestId, completeFix_type] at hcond
      have hfix : completeFix f s.currentRequestId (completeAll s.processSteps) m0
          = { m0 with processSteps := some (completeAll s.processSteps) } := by
        unfold completeFix
        rw [if_pos hcond]
      rw [hfix]
      intro st hst
      simp only [Option.getD_some] at hst
      obtain ⟨st0, _, rfl⟩ := List.mem_map.1 hst
      rfl

/-- Witness for the amended C7: a first turn with no streamed entry gets
the synthesized assistant entry with follow-ups, and the open turn is
closed. -/
theorem witC7_completeFinalizes :
    truthyOpt (Frame.mk (some "complete") none none none none none none none none none (some "hi") (some ["Q1"])).response = true ∧
    c5State.currentStreamingMessageId = none ∧
    (∀ m ∈ c5State.messages, m.type ≠ MsgType.ai) ∧
    (handleComplete 70 c5State
        (Frame.mk (some "complete") none none none none none none none none none (some "hi") (some ["Q1"]))).messages.filter
      (fun m => decide (m.type = MsgType.ai))
      = [ { id := toString 70 ++ "_ai", type := MsgType.ai, content := "hi",
            suggestedQuestions := some ["Q1"] } ] ∧
    (∀ m ∈ c5State.messages, m.isStreaming = true → m.type = MsgType.ai) ∧
    (handleComplete 70 c5State
        (Frame.mk (some "complete") none none none none none none none none none (some "hi") (some ["Q1"]))).isLoading = false :=
  ⟨by decide, by decide, by decide,
   thmC7_completeFinalizes.1 70 c5State
     (Frame.mk (some "complete") none none none none none none none none none (some "hi") (some ["Q1"]))
     (by decide) (by decide) (by decide),
   by decide,
   (thmC7_completeFinalizes.2 70 c5State
     (Frame.mk (some "complete") none none none none none none none none none (some "hi") (some ["Q1"]))
     (by decide)).2.2.1⟩
